import Mathlib

/-!
Shallow embedding of the attribute-resolution, material-fraction, unit and
storey-splitting core of the openBIM service, together with theorems that
settle the frozen specification claims against it.

Numeric values (IFC lengths, volumes, fractions) are modelled as exact
rationals (`ℚ`).  Python truthiness (`x or y`, `if x:`) is embedded
explicitly: `None`, `0.0` and the empty string are falsy.  Python `round`
is modelled by rounding to a decimal number of digits with Mathlib `round`
(the models in question never hit an exact decimal tie, where Python uses
banker's rounding).
-/

namespace OpenBim

/-- Python `s or default` for an optional string: `None` and `""` are falsy. -/
def pyOrStr (v : Option String) (d : String) : String :=
  match v with
  | none => d
  | some s => if s = "" then d else s

/-- Python `a or b` for an optional rational: `None` and `0.0` are falsy. -/
def pyOrQ (a b : Option ℚ) : Option ℚ :=
  match a with
  | none => b
  | some x => if x = 0 then b else some x

/-- Python truthiness of an optional rational (`if v:`). -/
def truthyQ (v : Option ℚ) : Bool :=
  match v with
  | none => false
  | some x => decide (x ≠ 0)

/-- Round a rational to `d` decimal digits, the model of `round(value, d)`. -/
def roundTo (q : ℚ) (d : ℕ) : ℚ :=
  (round (q * 10 ^ d) : ℤ) / 10 ^ d

/-! ### Data model

An `Element` carries the pieces of the IFC entity graph the resolution
chain reads: its class tag, its flattened `IfcElementQuantity` quantities
(in document order, across all `IsDefinedBy` relationships), its property
sets, and its material associations (`HasAssociations`). -/

/-- Sub-quantity of an `IfcPhysicalComplexQuantity`: `isLength` models
`is_a("IfcQuantityLength")`; `lengthValue` models `LengthValue`. -/
structure SubQuantity where
  isLength : Bool
  name : Option String
  lengthValue : ℚ
deriving Repr, DecidableEq

/-- Kind tag of a simple physical quantity (`is_a` dispatch). -/
inductive QtyKind where
  | volume
  | length
  | area
  | other
deriving Repr, DecidableEq

/-- One entry of an `IfcElementQuantity.Quantities` list: either a simple
quantity (volume/length/area value) or a physical complex quantity. -/
inductive Qty where
  | simple (kind : QtyKind) (name : Option String) (value : ℚ)
  | complex (name : Option String) (subs : List SubQuantity)
deriving Repr, DecidableEq

/-- A named property inside an `IfcPropertySet` (scalar, post-coercion). -/
structure PsetProp where
  name : String
  value : ℚ
deriving Repr, DecidableEq

/-- An `IfcPropertySet` attached to the element via `IsDefinedBy`. -/
structure PropSet where
  psetName : String
  props : List PsetProp
deriving Repr, DecidableEq

/-- A material layer of an `IfcMaterialLayerSet`: optional material name
(`none` models a layer with no `Material` object) and `LayerThickness`. -/
structure Layer where
  material : Option String
  thickness : ℚ
deriving Repr, DecidableEq

/-- A constituent of an `IfcMaterialConstituentSet`: the constituent's own
`Name` and the name of its `Material` (`none` models a missing object). -/
structure Constituent where
  name : Option String
  materialName : Option String
deriving Repr, DecidableEq

/-- Material association variants handled by the material service. -/
inductive MatAssign where
  | layerSetUsage (layers : List Layer)
  | constituentSet (cs : List Constituent)
  | single (name : String)
deriving Repr, DecidableEq

/-- Building element as seen by the resolution chain. -/
structure Element where
  ifcClass : String
  globalId : String
  quantities : List Qty
  psets : List PropSet
  assocs : List MatAssign
deriving Repr, DecidableEq

/-! ### quantities.py -/

/-- Step of the scan in `get_volume_from_basequantities`: a simple quantity
typed as a volume or (defensively) as a length named `NetVolume` /
`GrossVolume` overwrites the corresponding slot; later matches win. -/
def volumeStep (acc : Option ℚ × Option ℚ) (q : Qty) : Option ℚ × Option ℚ :=
  match q with
  | .simple k n v =>
      if (k = .volume ∨ k = .length) ∧ n = some "NetVolume" then (some v, acc.2)
      else if (k = .volume ∨ k = .length) ∧ n = some "GrossVolume" then (acc.1, some v)
      else acc
  | .complex _ _ => acc

/-- Model of `get_volume_from_basequantities`. -/
def get_volume_from_basequantities (e : Element) : Option ℚ × Option ℚ :=
  e.quantities.foldl volumeStep (none, none)

/-- Lookup of one property in one named property set (`get_pset`). -/
def getPset (e : Element) (psetName propName : String) : Option ℚ :=
  (e.psets.find? (fun ps => ps.psetName = psetName)).bind
    (fun ps => (ps.props.find? (fun p => p.name = propName)).map (fun p => p.value))

/-- Model of `get_element_property`: probe `Pset_<Type>Common` (type tag
with the leading `Ifc` stripped) then `Pset_ElementCommon`, combined with
Python `or` (a property holding `0.0` is falsy and falls through). -/
def get_element_property (e : Element) (propName : String) : Option ℚ :=
  pyOrQ (getPset e ("Pset_" ++ (e.ifcClass.drop 3) ++ "Common") propName)
        (getPset e "Pset_ElementCommon" propName)

/-- Model of `float(v) if v else None` applied to a property value. -/
def coerceTruthy (v : Option ℚ) : Option ℚ :=
  match v with
  | none => none
  | some x => if x = 0 then none else some x

/-- Model of `get_volume_from_properties`: the quantity-set scan wins when
it produced a net or a gross value; only otherwise are the named
properties `NetVolume` / `GrossVolume` consulted. -/
def get_volume_from_properties (e : Element) : Option ℚ × Option ℚ :=
  if (get_volume_from_basequantities e).1.isSome ∨
     (get_volume_from_basequantities e).2.isSome then
    get_volume_from_basequantities e
  else (coerceTruthy (get_element_property e "NetVolume"),
        coerceTruthy (get_element_property e "GrossVolume"))

/-! ### constituents.py -/

/-- Lowercasing of one ASCII character (model of Python `str.lower` for
the ASCII names appearing in the source's IFC data). -/
def lowerChar (c : Char) : Char :=
  if 65 ≤ c.toNat ∧ c.toNat ≤ 90 then Char.ofNat (c.toNat + 32) else c

/-- ASCII whitespace test (the default characters of Python `str.strip`). -/
def isSpaceChar (c : Char) : Bool :=
  c = ' ' || c = '\t' || c = '\n' || c = '\r'

/-- Model of Python `s.strip().lower()` over the string's characters. -/
def pyStripLower (s : String) : String :=
  String.mk ((((s.data.dropWhile isSpaceChar).reverse.dropWhile
    isSpaceChar).reverse).map lowerChar)

/-- Normalization `(name or "").strip().lower()` of a quantity name. -/
def normName (s : Option String) : String :=
  pyStripLower (pyOrStr s "")

/-- Normalization `(Name or "Unnamed Constituent").strip().lower()` of a
constituent name. -/
def constituentKey (c : Constituent) : String :=
  pyStripLower (pyOrStr c.name "Unnamed Constituent")

/-- Ordered list of complex quantities whose normalized name equals `key`
(the per-name bucket of `quantity_name_map`). -/
def quantityListsFor (qs : List Qty) (key : String) : List (List SubQuantity) :=
  qs.filterMap (fun q =>
    match q with
    | .complex n subs => if normName n = key then some subs else none
    | .simple _ _ _ => none)

/-- Test for the `Width` sub-quantity inside a complex quantity:
`is_a("IfcQuantityLength")` and case-insensitive name `width`. -/
def isWidthSub (sq : SubQuantity) : Bool :=
  sq.isLength && (pyStripLower (pyOrStr sq.name "") == "width")

/-- Width in millimeters extracted from a complex quantity's sub-quantities:
the first matching `Width` sub-quantity scaled by `scale`, else `0`. -/
def widthFromSubs (subs : List SubQuantity) (scale : ℚ) : ℚ :=
  match subs.find? isWidthSub with
  | some sq => sq.lengthValue * scale
  | none => 0

/-- Width loop of `compute_constituent_fractions`: `seen` carries the keys
of already-processed constituents, so `seen.count key` is the running
`constituent_indices` counter used to consume duplicate-named quantities
in order of appearance. -/
def widthsAux (qs : List Qty) (scale : ℚ) : List String → List Constituent → List ℚ
  | _, [] => []
  | seen, c :: rest =>
      let key := constituentKey c
      let cnt := seen.count key
      let qlists := quantityListsFor qs key
      let w := if cnt < qlists.length then widthFromSubs (qlists.getD cnt []) scale else 0
      w :: widthsAux qs scale (key :: seen) rest

/-- Fraction/width computation over an explicit quantity list. -/
def computeFractionsQ (qs : List Qty) (scale : ℚ) (cs : List Constituent) :
    List ℚ × List ℚ :=
  if cs.isEmpty then ([], [])
  else
    let widths := widthsAux qs scale [] cs
    let total := widths.sum
    let fractions :=
      if total = 0 then cs.map (fun _ => (1 : ℚ) / cs.length)
      else widths.map (fun w => w / total)
    (fractions, widths)

/-- Quantities gathered from the associated elements (each element's
`IsDefinedBy` → `IfcElementQuantity` → `Quantities`, in order). -/
def collectElementQuantities (es : List Element) : List Qty :=
  (es.map Element.quantities).flatten

/-- Model of `compute_constituent_fractions`: fractions and widths for the
constituents of a constituent set, aligned positionally with `cs`. -/
def compute_constituent_fractions (cs : List Constituent) (es : List Element)
    (scale : ℚ) : List ℚ × List ℚ :=
  computeFractionsQ (collectElementQuantities es) scale cs

/-- Closed-form width of constituent `i` as the claim states it: count the
earlier constituents with the same normalized name, index the bucket of
duplicate-named complex quantities with that count, extract `Width`. -/
def widthSpec (qs : List Qty) (scale : ℚ) (cs : List Constituent) (i : ℕ) : ℚ :=
  let key := constituentKey (cs.getD i ⟨none, none⟩)
  let cnt := ((cs.take i).map constituentKey).count key
  let qlists := quantityListsFor qs key
  if cnt < qlists.length then widthFromSubs (qlists.getD cnt []) scale else 0

theorem widthsAux_length (qs : List Qty) (scale : ℚ) :
    ∀ (cs : List Constituent) (seen : List String),
      (widthsAux qs scale seen cs).length = cs.length := by
  intro cs
  induction cs with
  | nil => intro seen; rfl
  | cons c rest ih => intro seen; simp [widthsAux, ih]

theorem widthsAux_getD (qs : List Qty) (scale : ℚ) :
    ∀ (cs : List Constituent) (seen : List String) (i : ℕ), i < cs.length →
      (widthsAux qs scale seen cs).getD i 0 =
        (let key := constituentKey (cs.getD i ⟨none, none⟩)
         let cnt := seen.count key + ((cs.take i).map constituentKey).count key
         if cnt < (quantityListsFor qs key).length then
           widthFromSubs ((quantityListsFor qs key).getD cnt []) scale
         else 0) := by
  intro cs
  induction cs with
  | nil => intro seen i hi; simp at hi
  | cons c rest ih =>
      intro seen i hi
      match i with
      | 0 => simp [widthsAux]
      | j + 1 =>
          have hj : j < rest.length := by simpa using hi
          have := ih (constituentKey c :: seen) j hj
          simp only [widthsAux, List.getD_cons_succ, List.take_succ_cons,
            List.map_cons, List.getD_cons_succ] at this ⊢
          rw [this]
          have hcount :
              (constituentKey c :: seen).count
                  (constituentKey (rest.getD j ⟨none, none⟩)) +
                ((rest.take j).map constituentKey).count
                  (constituentKey (rest.getD j ⟨none, none⟩)) =
              seen.count (constituentKey (rest.getD j ⟨none, none⟩)) +
                ((constituentKey c :: (rest.take j).map constituentKey).count
                  (constituentKey (rest.getD j ⟨none, none⟩))) := by
            rw [List.count_cons, List.count_cons]
            ring
          rw [hcount]

/-! ### materials.py -/

/-- Resolved dimensions record of `get_dimensions_from_*`. -/
structure Dims where
  length : Option ℚ
  width : Option ℚ
  height : Option ℚ
deriving Repr, DecidableEq

/-- Step of `get_dimensions_from_basequantities`: `IfcQuantityLength`
entries named `Length`, `Width`/`Thickness`, `Height`; later matches win. -/
def dimsStep (acc : Dims) (q : Qty) : Dims :=
  match q with
  | .simple .length n v =>
      if n = some "Length" then { acc with length := some v }
      else if n = some "Width" ∨ n = some "Thickness" then { acc with width := some v }
      else if n = some "Height" then { acc with height := some v }
      else acc
  | _ => acc

/-- Model of `get_dimensions_from_basequantities`. -/
def get_dimensions_from_basequantities (e : Element) : Dims :=
  e.quantities.foldl dimsStep ⟨none, none, none⟩

/-- Python `any(dimensions.values())`: `None` and `0.0` are falsy. -/
def dimsAnyTruthy (d : Dims) : Bool :=
  truthyQ d.length || truthyQ d.width || truthyQ d.height

/-- Model of `get_dimensions_from_properties`: base quantities win when any
value is truthy, else the named-property fallback (with `Width` falling
back to `Thickness` under Python `or`). -/
def get_dimensions_from_properties (e : Element) : Dims :=
  let d := get_dimensions_from_basequantities e
  if dimsAnyTruthy d then d
  else
    { length := coerceTruthy (get_element_property e "Length")
      width := coerceTruthy (pyOrQ (get_element_property e "Width")
                                   (get_element_property e "Thickness"))
      height := coerceTruthy (get_element_property e "Height") }

/-- One entry of the `get_layer_volumes_and_materials` result: material
name, allocated volume, fraction, and the optional `width` field (`none`
models the key being absent from the Python dict). -/
structure MatEntry where
  name : String
  volume : ℚ
  fraction : ℚ
  width : Option ℚ
deriving Repr, DecidableEq

/-- Model of `MaterialService._process_layer_set`: thickness-proportional
fractions (all `0` when the total thickness is `0` by Python truthiness),
volumes `total_volume * fraction` (`0` when `total_volume` is falsy),
values rounded as in the source (volume 5, fraction 5, width 3 digits). -/
def processLayerSet (layers : List Layer) (totalVolume : ℚ) : List MatEntry :=
  let totalThickness := (layers.map Layer.thickness).sum
  layers.map (fun l =>
    let fraction := if totalThickness = 0 then 0 else l.thickness / totalThickness
    let layerVolume := if totalVolume = 0 then 0 else totalVolume * fraction
    { name := l.material.getD "Unnamed Material"
      volume := roundTo layerVolume 5
      fraction := roundTo fraction 5
      width := some (roundTo l.thickness 3) })

/-- Model of `MaterialService._process_constituent_set`: equal fractions
`1/n`, volumes `total_volume * fraction` (`0` when falsy), no width. -/
def processConstituentSet (cs : List Constituent) (totalVolume : ℚ) : List MatEntry :=
  cs.map (fun c =>
    let fraction := (1 : ℚ) / cs.length
    { name := c.materialName.getD "Unnamed Material"
      volume := if totalVolume = 0 then 0 else totalVolume * fraction
      fraction := fraction
      width := none })

/-- Model of `MaterialService.get_layer_volumes_and_materials`. -/
def get_layer_volumes_and_materials (e : Element) (totalVolume : ℚ) : List MatEntry :=
  (e.assocs.map (fun a =>
    match a with
    | .layerSetUsage layers => processLayerSet layers totalVolume
    | .constituentSet cs => processConstituentSet cs totalVolume
    | .single n => [{ name := n, volume := totalVolume, fraction := 1, width := none }])).flatten

/-- Model of `MaterialService.get_element_materials`: material names in
encounter order (entries without a material object are skipped). -/
def get_element_materials (e : Element) : List String :=
  (e.assocs.map (fun a =>
    match a with
    | .layerSetUsage layers => layers.filterMap Layer.material
    | .constituentSet cs => cs.filterMap Constituent.materialName
    | .single n => [n])).flatten

/-- Model of `total_volume = volumes.get("net") or volumes.get("gross") or 0.0`:
Python `or` chains under truthiness, so a present `0.0` falls through. -/
def totalVolumeOf (v : Option ℚ × Option ℚ) : ℚ :=
  (pyOrQ v.1 (pyOrQ v.2 (some 0))).getD 0

/-- Fuel-indexed key-deduplication loop: `while key in keys: key = name ++
" (counter)"; counter += 1`, starting from `counter = 1`. -/
def uniqueKeyAux (keys : List String) (name : String) :
    ℕ → ℕ → String → String
  | 0, _, key => key
  | fuel + 1, counter, key =>
      if key ∈ keys then
        uniqueKeyAux keys name fuel (counter + 1)
          (name ++ " (" ++ toString counter ++ ")")
      else key

/-- First free key for `name` given the keys already in the map; the fuel
`keys.length + 1` suffices because each loop step either exits or moves to
a fresh candidate. -/
def uniqueKey (keys : List String) (name : String) : String :=
  uniqueKeyAux keys name (keys.length + 1) 1 name

/-- One entry of the `get_material_volumes` result map, in insertion
order: deduplicated key, fraction, rounded volume, optional width. -/
structure MVEntry where
  key : String
  fraction : ℚ
  volume : ℚ
  width : Option ℚ
deriving Repr, DecidableEq

/-- Single-material width fixup of `get_material_volumes`: when exactly one
entry exists and it has no width, pull the width from the dimension
resolution chain. -/
def widthFixup (e : Element) (layers : List MatEntry) : List MatEntry :=
  match layers with
  | [l] =>
      if l.width = none then
        match (get_dimensions_from_properties e).width with
        | some w => [{ l with width := some w }]
        | none => [l]
      else [l]
  | _ => layers

/-- Model of `MaterialService.get_material_volumes`: resolve the total
volume with Python-`or` semantics, build the per-material entries, then
insert them under collision-deduplicated keys in first-seen order. -/
def get_material_volumes (e : Element) : List MVEntry :=
  let total := totalVolumeOf (get_volume_from_properties e)
  let layers := widthFixup e (get_layer_volumes_and_materials e total)
  layers.foldl (fun acc l =>
    acc ++ [{ key := uniqueKey (acc.map MVEntry.key) l.name
              fraction := l.fraction
              volume := roundTo l.volume 5
              width := l.width.map (fun w => roundTo w 3) }]) []

/-! ### units.py -/

/-- A project-level unit declaration inside `IfcProject.UnitsInContext`:
an SI unit with optional metric prefix, a conversion-based unit with an
explicit factor, or an entity of another kind (skipped). -/
inductive UnitDecl where
  | si (unitType : String) (name : String) (pfx : Option String)
  | conv (unitType : String) (name : String) (factor : ℚ)
  | other
deriving Repr, DecidableEq

/-- The unit record stored in the units dict (and the default built at the
call sites): `pfx`, `convFactor` and `scaleToMm` model the optional
`prefix`, `conversion_factor` and `scale_to_mm` keys. -/
structure ResolvedUnit where
  name : String
  pfx : Option String := none
  convFactor : Option ℚ := none
  scaleToMm : Option ℚ := none
deriving Repr, DecidableEq

/-- Python dict assignment `m[k] = v`: overwrite in place or append. -/
def upsert (m : List (String × ResolvedUnit)) (k : String) (v : ResolvedUnit) :
    List (String × ResolvedUnit) :=
  if (m.find? (fun p => p.1 = k)).isSome then
    m.map (fun p => if p.1 = k then (k, v) else p)
  else m ++ [(k, v)]

/-- One declaration's effect on the units dict: SI units store name and
prefix, conversion-based units store name and factor, others are skipped. -/
def unitsStep (m : List (String × ResolvedUnit)) (d : UnitDecl) :
    List (String × ResolvedUnit) :=
  match d with
  | .si t n p => upsert m t { name := n, pfx := p }
  | .conv t n f => upsert m t { name := n, convFactor := some f }
  | .other => m

/-- The `UnitType` a declaration would be stored under. -/
def declUnitType : UnitDecl → Option String
  | .si t _ _ => some t
  | .conv t _ _ => some t
  | .other => none

/-- An `IfcProject` as `get_project_units` reads it: `unitsInContext = none`
models a project without the `IfcUnitAssignment`, which the IFC4 schema
leaves optional. -/
structure Project where
  unitsInContext : Option (List UnitDecl)
deriving Repr, DecidableEq

/-- The project-level portion of a document: the result of
`by_type("IfcProject")`, in document order. -/
structure IfcDocument where
  projects : List Project
deriving Repr, DecidableEq

/-- Model of `get_project_units` including its access path:
`ifc_file.by_type("IfcProject")[0]` raises `IndexError` when the document
has no project, and `project.UnitsInContext.Units` raises `AttributeError`
when the optional unit assignment is absent; otherwise the declarations
are folded into the units dict.  Error strings are the Python messages. -/
def get_project_units (doc : IfcDocument) :
    Except String (List (String × ResolvedUnit)) :=
  match doc.projects with
  | [] => Except.error "list index out of range"
  | p :: _ =>
      match p.unitsInContext with
      | none => Except.error "'NoneType' object has no attribute 'Units'"
      | some decls => Except.ok (decls.foldl unitsStep [])

/-- Dict lookup in the units table. -/
def lookupUnit (m : List (String × ResolvedUnit)) (k : String) : Option ResolvedUnit :=
  (m.find? (fun p => p.1 = k)).map (fun p => p.2)

/-- Model of the callers' `units.get("LENGTHUNIT", {"type": "LENGTHUNIT",
"name": "METER"})`, downstream of `get_project_units`: the default applies
only when the lookup itself succeeded without a length unit; an exception
from `get_project_units` propagates (the routes turn it into a fatal HTTP
400). -/
def resolveLengthUnit (doc : IfcDocument) : Except String ResolvedUnit :=
  (get_project_units doc).map
    (fun units => (lookupUnit units "LENGTHUNIT").getD { name := "METER" })

/-- Model of `length_unit.get("scale_to_mm", 1.0)`. -/
def unitScaleToMm (u : ResolvedUnit) : ℚ :=
  u.scaleToMm.getD 1

/-- The `prefix_factors` table of `convert_unit_value`, as exact rationals. -/
def prefixFactors : List (String × ℚ) :=
  [("EXA", 10 ^ 18), ("PETA", 10 ^ 15), ("TERA", 10 ^ 12), ("GIGA", 10 ^ 9),
   ("MEGA", 10 ^ 6), ("KILO", 10 ^ 3), ("HECTO", 10 ^ 2), ("DECA", 10),
   ("DECI", 1 / 10), ("CENTI", 1 / 10 ^ 2), ("MILLI", 1 / 10 ^ 3),
   ("MICRO", 1 / 10 ^ 6), ("NANO", 1 / 10 ^ 9), ("PICO", 1 / 10 ^ 12),
   ("FEMTO", 1 / 10 ^ 15), ("ATTO", 1 / 10 ^ 18)]

/-- Model of `prefix_factors.get(prefix, 1.0)`. -/
def lookupFactor (p : String) : ℚ :=
  ((prefixFactors.find? (fun q => q.1 = p)).map (fun q => q.2)).getD 1

/-- Scalar conversion factor of `convert_unit_value`: the prefix factor
when a truthy `prefix` is present, times any explicit conversion factor. -/
def unitFactor (u : ResolvedUnit) : ℚ :=
  let f : ℚ :=
    match u.pfx with
    | some p => if p ≠ "" then lookupFactor p else 1
    | none => 1
  match u.convFactor with
  | some c => f * c
  | none => f

/-- Scalar branch of `convert_unit_value`. -/
def convertScalar (x : ℚ) (u : ResolvedUnit) : ℚ :=
  x * unitFactor u

/-- Value shapes accepted by `convert_unit_value`: a scalar (possibly
`None`) or a mapping whose leaves are scalars (possibly `None`). -/
inductive UVal where
  | scalar (v : Option ℚ)
  | mapping (m : List (String × Option ℚ))
deriving Repr, DecidableEq

/-- Model of `convert_unit_value`: a mapping converts each leaf via the
comprehension `{k: convert(v) for k, v in value.items() if v is not None}`
(note the filter), a `None` scalar passes through, a number is scaled. -/
def convert_unit_value (v : UVal) (u : ResolvedUnit) : UVal :=
  match v with
  | .mapping m =>
      .mapping (m.filterMap (fun kv =>
        match kv.2 with
        | none => none
        | some x => some (kv.1, some (convertScalar x u))))
  | .scalar none => .scalar none
  | .scalar (some x) => .scalar (some (convertScalar x u))

/-- Modelled from the spec: the SI prefix exponent table of §4.1
(ATTO = -18 … EXA = +18), used to check the code's factor table. -/
def siPrefixExponent (p : String) : Option ℤ :=
  if p = "EXA" then some 18
  else if p = "PETA" then some 15
  else if p = "TERA" then some 12
  else if p = "GIGA" then some 9
  else if p = "MEGA" then some 6
  else if p = "KILO" then some 3
  else if p = "HECTO" then some 2
  else if p = "DECA" then some 1
  else if p = "DECI" then some (-1)
  else if p = "CENTI" then some (-2)
  else if p = "MILLI" then some (-3)
  else if p = "MICRO" then some (-6)
  else if p = "NANO" then some (-9)
  else if p = "PICO" then some (-12)
  else if p = "FEMTO" then some (-15)
  else if p = "ATTO" then some (-18)
  else none

/-! ### ifc_routes.py, extract-building-elements materials section -/

/-- Structured warning `{element_id, element_type, total_fraction}`. -/
structure Warning where
  element_id : String
  element_type : String
  total_fraction : ℚ
deriving Repr, DecidableEq

/-- One entry of the route's `material_volumes` map, in insertion order. -/
structure RouteEntry where
  key : String
  fraction : ℚ
  volume : ℚ
  width : Option ℚ
deriving Repr, DecidableEq

/-- The materials portion of one element's output record plus the warnings
it contributed: `material_volumes = none` models the key being absent. -/
structure MaterialsOut where
  materials : List String
  material_volumes : Option (List RouteEntry)
  warnings : List Warning
deriving Repr, DecidableEq

/-- Entry construction of the route's constituent path: unique key per
material name (`"Unknown"` when the material object is missing), raw
fraction, converted volume `element_volume * fraction`, raw width in mm. -/
def buildConstituentEntries (cs : List Constituent) (fr ws : List ℚ)
    (elemVol : ℚ) (u : ResolvedUnit) (excludeWidth : Bool) : List RouteEntry :=
  (cs.zip (fr.zip ws)).foldl (fun acc cw =>
    let materialName := cw.1.materialName.getD "Unknown"
    acc ++ [{ key := uniqueKey (acc.map RouteEntry.key) materialName
              fraction := cw.2.1
              volume := convertScalar (elemVol * cw.2.1) u
              width := if excludeWidth then none else some cw.2.2 }]) []

/-- One step of the route's loop over `HasAssociations`: a constituent set
with computed fractions rebuilds `material_volumes`; when the fraction sum
is outside tolerance the map is popped and a warning appended. -/
def constituentPassStep (e : Element) (u : ResolvedUnit) (elemVol : ℚ)
    (excludeWidth : Bool)
    (st : Option (List RouteEntry) × List Warning) (a : MatAssign) :
    Option (List RouteEntry) × List Warning :=
  match a with
  | .constituentSet cs =>
      let scale := unitScaleToMm u
      let frws := compute_constituent_fractions cs [e] scale
      if frws.1 = [] then st
      else
        let entries := buildConstituentEntries cs frws.1 frws.2 elemVol u excludeWidth
        let total := frws.1.sum
        if |total - 1| > 1 / 1000 then
          (none, st.2 ++ [{ element_id := e.globalId, element_type := e.ifcClass,
                            total_fraction := total }])
        else (some entries, st.2)
  | _ => st

/-- Constituent-set pass of the route: runs only when the element's net
volume is truthy (`if not exclude_constituent_volumes and element_volume`),
folding the association list from an empty state. -/
def constituentPass (e : Element) (u : ResolvedUnit) (excludeWidth : Bool) :
    Option (List RouteEntry) × List Warning :=
  if truthyQ (get_volume_from_properties e).1 then
    e.assocs.foldl
      (constituentPassStep e u (((get_volume_from_properties e).1).getD 0) excludeWidth)
      (none, [])
  else (none, [])

/-- Fallback of the route: when the constituent pass left no
`material_volumes`, the standard `get_material_volumes` breakdown is used,
exposed only when its fraction sum is within tolerance and otherwise
replaced by a warning. -/
def fallbackMaterialVolumes (e : Element) (u : ResolvedUnit) (excludeWidth : Bool)
    (st : Option (List RouteEntry) × List Warning) : MaterialsOut :=
  match st.1 with
  | some mv =>
      { materials := get_element_materials e
        material_volumes := some mv
        warnings := st.2 }
  | none =>
      if get_material_volumes e = [] then
        { materials := get_element_materials e
          material_volumes := none
          warnings := st.2 }
      else if |((get_material_volumes e).map MVEntry.fraction).sum - 1| ≤ 1 / 1000 then
        { materials := get_element_materials e
          material_volumes := some ((get_material_volumes e).map (fun i =>
            { key := i.key
              fraction := roundTo i.fraction 5
              volume := roundTo (convertScalar i.volume u) 5
              width := if excludeWidth then none else i.width }))
          warnings := st.2 }
      else
        { materials := get_element_materials e
          material_volumes := none
          warnings := st.2 ++ [{ element_id := e.globalId,
                                 element_type := e.ifcClass,
                                 total_fraction :=
                                   ((get_material_volumes e).map MVEntry.fraction).sum }] }

/-- Materials section of `extract_building_elements` in `ifc_routes.py`
(the mounted route), for one element: constituent-set path first (only
when the net volume is truthy), then the standard material-volume fallback
with its own tolerance check; warnings collect out-of-tolerance records. -/
def processMaterials (e : Element) (u : ResolvedUnit) (excludeWidth : Bool) :
    MaterialsOut :=
  if get_element_materials e = [] then
    { materials := [], material_volumes := none, warnings := [] }
  else fallbackMaterialVolumes e u excludeWidth (constituentPass e u excludeWidth)

/-! ### splitter.py -/

/-- A product entity as the add pass of `split_by_storey` sees it: element
flag (`is_a("IfcElement")`), the outcome of the direct storey test for the
target storey, and whether it still carries a geometric representation. -/
structure SEntity where
  eid : ℕ
  isElement : Bool
  inStorey : Bool
  hasRepresentation : Bool
deriving Repr, DecidableEq

/-- Add pass of `split_by_storey` (lines 59-76): an element failing the
storey test has its representation nulled and is skipped (`continue`); any
other entity is added.  Returns the entities actually added to the new
document and the post-pass states of all processed entities, in order. -/
def addPass : List SEntity → List SEntity × List SEntity
  | [] => ([], [])
  | e :: rest =>
      let r := addPass rest
      if e.isElement && !e.inStorey then
        (r.1, { e with hasRepresentation := false } :: r.2)
      else (e :: r.1, e :: r.2)

/-- Message of the `ValueError` raised at splitter.py line 38. -/
def noStoreysError : String := "No storeys found in the IFC file"

/-- Outer except handler of `split_by_storey` (lines 107-111): it logs and
then attempts `shutil.rmtree(output_dir)` — but the module imports only
`copyfile` from `shutil` (line 7), and the output directory was created at
entry and exists, so the cleanup itself raises `NameError: name 'shutil'
is not defined`, which replaces whatever error was being handled (the bare
`raise` on line 111 is never reached). -/
def splitOuterHandler (_err : String) : String :=
  "name 'shutil' is not defined"

/-- Control skeleton of `StoreySpiltterService.split_by_storey`: zero
storeys raise `ValueError` before any processing, which the outer handler
then masks with its own `NameError`; per-storey processing is wrapped in
try/except, a failing storey (`processStorey = none`) is logged and
skipped while the batch continues. -/
def split_by_storey {σ ρ : Type} (storeys : List σ) (processStorey : σ → Option ρ) :
    Except String (List ρ) :=
  if storeys.isEmpty then Except.error (splitOuterHandler noStoreysError)
  else Except.ok (storeys.filterMap processStorey)

/-- Sum of an elementwise division. -/
theorem sum_map_div (l : List ℚ) (c : ℚ) :
    (l.map (fun w => w / c)).sum = l.sum / c := by
  induction l with
  | nil => simp
  | cons a t ih => simp [ih, add_div]

/-- Sum of a constant map. -/
theorem sum_map_const (l : List Constituent) (x : ℚ) :
    (l.map (fun _ => x)).sum = l.length * x := by
  induction l with
  | nil => simp
  | cons a t ih => simp [ih]; ring

/-- Rounding zero gives zero. -/
theorem roundTo_zero (d : ℕ) : roundTo 0 d = 0 := by
  simp [roundTo]

/-- Core algebraic fact shared by several claims: the computed constituent
fractions of a non-empty constituent set sum to exactly `1`. -/
theorem computeFractionsQ_sum_one (qs : List Qty) (scale : ℚ)
    (cs : List Constituent) (h : cs ≠ []) :
    (computeFractionsQ qs scale cs).1.sum = 1 := by
  unfold computeFractionsQ
  rw [if_neg (by simpa using h)]
  simp only
  by_cases htot : (widthsAux qs scale [] cs).sum = 0
  · rw [if_pos htot, sum_map_const]
    have hlen : (cs.length : ℚ) ≠ 0 := by
      exact_mod_cast fun hc => h (List.length_eq_zero.mp (by exact_mod_cast hc))
    field_simp
  · rw [if_neg htot, sum_map_div, div_self htot]

/-- Nonempty constituent lists produce nonempty fraction lists, and the two
result lists of the fraction computation are aligned with the input. -/
theorem computeFractionsQ_lengths (qs : List Qty) (scale : ℚ)
    (cs : List Constituent) (h : cs ≠ []) :
    (computeFractionsQ qs scale cs).1.length = cs.length ∧
    (computeFractionsQ qs scale cs).2.length = cs.length := by
  unfold computeFractionsQ
  rw [if_neg (by simpa using h)]
  by_cases htot : (widthsAux qs scale [] cs).sum = 0 <;>
    simp [htot, widthsAux_length]

/-- Claim C10: for every non-empty constituent set,
`compute_constituent_fractions` returns one fraction per constituent and,
in exact rational arithmetic, the fractions sum to exactly `1`: either
equal shares `1/n` when the total width is `0`, or `width_i / total`. -/
theorem claim_C10 (cs : List Constituent) (es : List Element) (scale : ℚ)
    (h : cs ≠ []) :
    (compute_constituent_fractions cs es scale).1.length = cs.length ∧
    (compute_constituent_fractions cs es scale).1.sum = 1 := by
  refine ⟨(computeFractionsQ_lengths _ _ _ h).1, ?_⟩
  exact computeFractionsQ_sum_one _ _ _ h

/-- Witness for C10 at a concrete two-constituent set: both fractions
exist and sum to `1`. -/
theorem claim_C10_witness :
    (compute_constituent_fractions
        [⟨some "A", some "MatA"⟩, ⟨some "B", some "MatB"⟩] [] 1).1.length = 2 ∧
    (compute_constituent_fractions
        [⟨some "A", some "MatA"⟩, ⟨some "B", some "MatB"⟩] [] 1).1.sum = 1 :=
  claim_C10 [⟨some "A", some "MatA"⟩, ⟨some "B", some "MatB"⟩] [] 1 (by decide)

/-- Claim C7 (code bug): a document with zero building storeys makes the
split fail and produce no sub-documents, but with the cleanup handler's
`NameError` (`shutil` unbound, splitter.py:7 vs :110) in place of the
intended — and raised — "no storeys found" `ValueError`, which is masked;
a failure on one storey of a non-empty list still only omits that storey's
output while the batch continues with the rest. -/
theorem claim_C7 {σ ρ : Type} (storeys : List σ) (f : σ → Option ρ) :
    (storeys = [] →
      split_by_storey storeys f = Except.error "name 'shutil' is not defined" ∧
      split_by_storey storeys f ≠ Except.error "No storeys found in the IFC file") ∧
    (∀ pre s post, storeys = pre ++ s :: post → f s = none →
      split_by_storey storeys f = Except.ok (pre.filterMap f ++ post.filterMap f)) := by
  constructor
  · intro h; subst h
    refine ⟨rfl, ?_⟩
    intro hc
    rw [show split_by_storey ([] : List σ) f =
          Except.error "name 'shutil' is not defined" from rfl] at hc
    injection hc with hs
    exact absurd hs (by decide)
  · intro pre s post hs hf
    subst hs
    unfold split_by_storey
    rw [if_neg (by simp)]
    rw [List.filterMap_append, List.filterMap_cons_none hf]

/-- Witness for C7: the empty document fails with the `NameError` message
and not with the "no storeys found" error, and a two-storey document whose
first storey fails still emits the second storey's result. -/
theorem claim_C7_witness :
    split_by_storey ([] : List ℕ) (fun n => some n) =
      Except.error "name 'shutil' is not defined" ∧
    split_by_storey ([] : List ℕ) (fun n => some n) ≠
      Except.error "No storeys found in the IFC file" ∧
    split_by_storey [1, 2] (fun n => if n = 1 then none else some n) =
      Except.ok [2] := by
  refine ⟨((claim_C7 ([] : List ℕ) (fun n => some n)).1 rfl).1,
          ((claim_C7 ([] : List ℕ) (fun n => some n)).1 rfl).2, ?_⟩
  have h := (claim_C7 [1, 2] (fun n => if n = 1 then none else some n)).2
    [] 1 [2] rfl (by decide)
  simpa using h

/-- Concrete entity for the C3 counterexample: an element with geometry
that fails the direct storey test. -/
def entC3 : SEntity :=
  { eid := 1, isElement := true, inStorey := false, hasRepresentation := true }

/-- Counterexample to C3 as stated: the failing element has its
representation nulled but is NOT added by the add pass — the added list is
empty, so the element is omitted, contradicting "still added to the new
sub-document ... not omitted from the add pass". -/
theorem claim_C3_counterexample :
    (addPass [entC3]).1 = [] ∧
    (addPass [entC3]).2 =
      [{ eid := 1, isElement := true, inStorey := false, hasRepresentation := false }] := by
  decide

/-- Every element entity failing the storey test appears among the
post-pass entity states with its representation nulled. -/
theorem addPass_mem_nulled (es : List SEntity) :
    ∀ e : SEntity, e ∈ es → e.isElement = true → e.inStorey = false →
      { e with hasRepresentation := false } ∈ (addPass es).2 := by
  induction es with
  | nil => intro e he; cases he
  | cons x rest ih =>
      intro e he h2 h3
      rcases List.mem_cons.mp he with he | he
      · subst he
        have hc : (e.isElement && !e.inStorey) = true := by rw [h2, h3]; rfl
        simp only [addPass]
        rw [if_pos hc]
        exact List.mem_cons_self _ _
      · have hmem := ih e he h2 h3
        simp only [addPass]
        by_cases hx : (x.isElement && !x.inStorey) = true
        · rw [if_pos hx]
          exact List.mem_cons_of_mem _ hmem
        · rw [if_neg hx]
          exact List.mem_cons_of_mem _ hmem

/-- Every entity the add pass actually adds either is not an element or
passes the storey test: failing elements are omitted. -/
theorem addPass_added_passes (es : List SEntity) :
    ∀ a : SEntity, a ∈ (addPass es).1 → a.isElement = true → a.inStorey = true := by
  induction es with
  | nil => intro a ha; cases ha
  | cons x rest ih =>
      intro a ha hel
      simp only [addPass] at ha
      by_cases hx : (x.isElement && !x.inStorey) = true
      · rw [if_pos hx] at ha
        exact ih a ha hel
      · rw [if_neg hx] at ha
        rcases List.mem_cons.mp ha with h | h
        · subst h
          cases hsv : a.inStorey
          · exact absurd (by rw [hel, hsv]; rfl) hx
          · rfl
        · exact ih a h hel

/-- Claim C3 as amended: every element failing the direct storey test has
its geometric representation nulled out and is omitted by the add pass
(the `continue` skips the add); it is not added to the new document. -/
theorem claim_C3_amended (es : List SEntity) (e : SEntity)
    (h1 : e ∈ es) (h2 : e.isElement = true) (h3 : e.inStorey = false) :
    { e with hasRepresentation := false } ∈ (addPass es).2 ∧
    (∀ a, a ∈ (addPass es).1 → a.isElement = true → a.inStorey = true) :=
  ⟨addPass_mem_nulled es e h1 h2 h3, addPass_added_passes es⟩

/-- A second concrete entity that passes the storey test. -/
def entC3b : SEntity :=
  { eid := 2, isElement := true, inStorey := true, hasRepresentation := true }

/-- Witness for the amended C3 at a concrete list: the failing element
appears representation-stripped among the processed states, and every
added element passes the storey test. -/
theorem claim_C3_amended_witness :
    ({ eid := 1, isElement := true, inStorey := false,
       hasRepresentation := false } : SEntity) ∈ (addPass [entC3, entC3b]).2 ∧
    (∀ a, a ∈ (addPass [entC3, entC3b]).1 →
      a.isElement = true → a.inStorey = true) :=
  claim_C3_amended [entC3, entC3b] entC3 (by decide) (by decide) (by decide)

/-- Replacing the entries keyed `t` does not change a lookup of `k ≠ t`. -/
theorem find?_map_replace (m : List (String × ResolvedUnit)) (t k : String)
    (v : ResolvedUnit) (h : t ≠ k) :
    (m.map (fun p => if p.1 = t then (t, v) else p)).find? (fun p => p.1 = k) =
      m.find? (fun p => p.1 = k) := by
  induction m with
  | nil => rfl
  | cons p rest ih =>
      simp only [List.map_cons]
      by_cases hp : p.1 = t
      · rw [if_pos hp]
        rw [List.find?_cons_of_neg _ (by simp [h]),
            List.find?_cons_of_neg _ (by simp [hp, h])]
        exact ih
      · rw [if_neg hp]
        by_cases hpk : p.1 = k
        · rw [List.find?_cons_of_pos _ (by simp [hpk]),
              List.find?_cons_of_pos _ (by simp [hpk])]
        · rw [List.find?_cons_of_neg _ (by simp [hpk]),
              List.find?_cons_of_neg _ (by simp [hpk])]
          exact ih

/-- Dict assignment under a different key does not change a lookup. -/
theorem find?_upsert_ne (m : List (String × ResolvedUnit)) (t k : String)
    (v : ResolvedUnit) (h : t ≠ k) :
    (upsert m t v).find? (fun p => p.1 = k) = m.find? (fun p => p.1 = k) := by
  unfold upsert
  by_cases hm : (m.find? (fun p => p.1 = t)).isSome
  · rw [if_pos hm]
    exact find?_map_replace m t k v h
  · rw [if_neg hm]
    rw [List.find?_append]
    simp [h]

/-- Folding declarations none of which is stored under `k` leaves a
`k`-lookup empty. -/
theorem lookupUnit_foldl_none (k : String) :
    ∀ (decls : List UnitDecl) (m : List (String × ResolvedUnit)),
      (∀ d ∈ decls, declUnitType d ≠ some k) →
      lookupUnit m k = none →
      lookupUnit (decls.foldl unitsStep m) k = none := by
  intro decls
  induction decls with
  | nil => intro m _ hm; exact hm
  | cons d rest ih =>
      intro m hd hm
      rw [List.foldl_cons]
      refine ih (unitsStep m d) (fun x hx => hd x (List.mem_cons_of_mem _ hx)) ?_
      have hdk := hd d (List.mem_cons_self _ _)
      match d with
      | .si t n p =>
          have ht : t ≠ k := fun hc => hdk (by simp [declUnitType, hc])
          unfold lookupUnit unitsStep
          rw [find?_upsert_ne _ _ _ _ ht]
          exact hm
      | .conv t n f =>
          have ht : t ≠ k := fun hc => hdk (by simp [declUnitType, hc])
          unfold lookupUnit unitsStep
          rw [find?_upsert_ne _ _ _ _ ht]
          exact hm
      | .other => exact hm

/-- Document whose single project omits the optional unit assignment. -/
def docC8 : IfcDocument := { projects := [{ unitsInContext := none }] }

/-- Counterexample to C8 as stated: this document holds no project-level
unit declaration at all, yet unit resolution does not default to meters —
`get_project_units` raises `AttributeError` (surfaced by the routes as a
fatal HTTP 400), so resolution never succeeds. -/
theorem claim_C8_counterexample :
    get_project_units docC8 =
      Except.error "'NoneType' object has no attribute 'Units'" ∧
    resolveLengthUnit docC8 =
      Except.error "'NoneType' object has no attribute 'Units'" ∧
    ∀ u : ResolvedUnit, resolveLengthUnit docC8 ≠ Except.ok u := by
  refine ⟨rfl, rfl, ?_⟩
  intro u hc
  rw [show resolveLengthUnit docC8 =
        Except.error "'NoneType' object has no attribute 'Units'" from rfl] at hc
  cases hc

/-- Claim C8 as amended: when the project's unit assignment is present but
declares no length unit, resolution returns the `METER` default with scale
factor `1` and no error; but a project omitting the IFC4-optional
`UnitsInContext` — or a document with no `IfcProject` — makes
`get_project_units` raise, and the operation fails. -/
theorem claim_C8 (doc : IfcDocument) (p : Project) (rest : List Project)
    (decls : List UnitDecl)
    (hdoc : doc.projects = p :: rest)
    (hu : p.unitsInContext = some decls)
    (h : ∀ d ∈ decls, declUnitType d ≠ some "LENGTHUNIT") :
    resolveLengthUnit doc = Except.ok { name := "METER" } ∧
    (resolveLengthUnit doc).map unitScaleToMm = Except.ok 1 ∧
    (∀ doc2 : IfcDocument, doc2.projects = [] →
      get_project_units doc2 = Except.error "list index out of range") ∧
    (∀ doc3 : IfcDocument, ∀ p3 : Project, ∀ rest3 : List Project,
      doc3.projects = p3 :: rest3 → p3.unitsInContext = none →
      get_project_units doc3 =
        Except.error "'NoneType' object has no attribute 'Units'") := by
  have hok : get_project_units doc = Except.ok (decls.foldl unitsStep []) := by
    unfold get_project_units
    rw [hdoc]
    simp only [hu]
  have hlook : lookupUnit (decls.foldl unitsStep []) "LENGTHUNIT" = none :=
    lookupUnit_foldl_none "LENGTHUNIT" decls [] h rfl
  have hres : resolveLengthUnit doc = Except.ok { name := "METER" } := by
    unfold resolveLengthUnit
    rw [hok]
    simp only [Except.map]
    rw [hlook]
    rfl
  refine ⟨hres, ?_, ?_, ?_⟩
  · rw [hres]
    rfl
  · intro doc2 h2
    unfold get_project_units
    rw [h2]
  · intro doc3 p3 rest3 h3 hn
    unfold get_project_units
    rw [h3]
    simp only [hn]

/-- Document whose project declares only a volume unit. -/
def docC8w : IfcDocument :=
  { projects := [{ unitsInContext := some [UnitDecl.si "VOLUMEUNIT" "CUBIC_METRE" none] }] }

/-- Witness for the amended C8: a project declaring only a volume unit
resolves the length unit to the `METER` default with scale factor `1`. -/
theorem claim_C8_witness :
    resolveLengthUnit docC8w = Except.ok { name := "METER" } ∧
    (resolveLengthUnit docC8w).map unitScaleToMm = Except.ok 1 :=
  ⟨(claim_C8 docC8w { unitsInContext := some [UnitDecl.si "VOLUMEUNIT" "CUBIC_METRE" none] }
      [] [UnitDecl.si "VOLUMEUNIT" "CUBIC_METRE" none] rfl rfl (by decide)).1,
   (claim_C8 docC8w { unitsInContext := some [UnitDecl.si "VOLUMEUNIT" "CUBIC_METRE" none] }
      [] [UnitDecl.si "VOLUMEUNIT" "CUBIC_METRE" none] rfl rfl (by decide)).2.1⟩

/-- Counterexample to C9 as stated: converting the mapping with a `None`
leaf at key `net` drops the key entirely instead of passing it through —
the result holds no `net` entry at all. -/
theorem claim_C9_counterexample :
    convert_unit_value (UVal.mapping [("net", none), ("gross", some 2)])
        { name := "METER" } = UVal.mapping [("gross", some 2)] ∧
    "net" ∉ ([("gross", (some 2 : Option ℚ))].map Prod.fst) := by
  constructor
  · simp only [convert_unit_value, List.filterMap]
    norm_num [convertScalar, unitFactor]
  · decide

/-- Claim C9 as amended: a scalar is multiplied by the unit factor, which
is `10^prefix_exponent` for an SI-prefixed unit (per the spec's exponent
table) and the explicit factor for a conversion-based unit; a `None`
scalar passes through; a mapping converts every non-`None` leaf in place
and REMOVES `None` leaves from the result. -/
theorem claim_C9_amended (u : ResolvedUnit) :
    (∀ x : ℚ, convert_unit_value (UVal.scalar (some x)) u =
        UVal.scalar (some (x * unitFactor u))) ∧
    convert_unit_value (UVal.scalar none) u = UVal.scalar none ∧
    (∀ n : String, ∀ p : String, p ≠ "" →
        unitFactor { name := n, pfx := some p } = lookupFactor p) ∧
    (∀ pe, pe ∈ prefixFactors →
        siPrefixExponent pe.1 = some ((siPrefixExponent pe.1).getD 0) ∧
        lookupFactor pe.1 = (10 : ℚ) ^ ((siPrefixExponent pe.1).getD 0)) ∧
    (∀ c : ℚ, ∀ n : String, unitFactor { name := n, convFactor := some c } = c) ∧
    (∀ m : List (String × Option ℚ), ∃ l,
        convert_unit_value (UVal.mapping m) u = UVal.mapping l ∧
        (∀ k : String, ∀ x : ℚ, (k, some x) ∈ m →
            (k, some (convertScalar x u)) ∈ l) ∧
        (∀ kv, kv ∈ l → ∃ x : ℚ,
            kv.2 = some (convertScalar x u) ∧ (kv.1, some x) ∈ m) ∧
        (∀ k : String, (k, (none : Option ℚ)) ∉ l)) := by
  refine ⟨fun x => rfl, rfl, ?_, ?_, ?_, ?_⟩
  · intro n p hp
    simp [unitFactor, hp]
  · intro pe hpe
    fin_cases hpe <;>
      exact ⟨by simp [siPrefixExponent],
             by simp [siPrefixExponent, lookupFactor, prefixFactors] <;> norm_num⟩
  · intro c n
    simp [unitFactor]
  · intro m
    refine ⟨_, rfl, ?_, ?_, ?_⟩
    · intro k x hkx
      exact List.mem_filterMap.mpr ⟨(k, some x), hkx, rfl⟩
    · intro kv hkv
      obtain ⟨a, ha, hfa⟩ := List.mem_filterMap.mp hkv
      match a, ha, hfa with
      | (k0, none), ha, hfa => cases hfa
      | (k0, some x), ha, hfa =>
          injection hfa with h1
          subst h1
          exact ⟨x, rfl, ha⟩
    · intro k hk
      obtain ⟨a, _, hfa⟩ := List.mem_filterMap.mp hk
      match a, hfa with
      | (k0, none), hfa => cases hfa
      | (k0, some x), hfa =>
          injection hfa with h1
          cases h1

/-- Witness for the amended C9: a `KILO`-prefixed length unit scales a
scalar by `1000`, a conversion-based unit by its factor, and a mapping
with a `None` leaf keeps exactly the converted non-`None` leaves. -/
theorem claim_C9_amended_witness :
    unitFactor { name := "METRE", pfx := some "KILO" } =
      (10 : ℚ) ^ ((siPrefixExponent "KILO").getD 0) ∧
    unitFactor { name := "FOOT", convFactor := some (3048 / 10000) } =
      3048 / 10000 ∧
    convert_unit_value (UVal.scalar (some 2)) { name := "METRE", pfx := some "KILO" } =
      UVal.scalar (some (2 * unitFactor { name := "METRE", pfx := some "KILO" })) := by
  refine ⟨?_, ?_, ?_⟩
  · have h1 := (claim_C9_amended { name := "METRE", pfx := some "KILO" }).2.2.1
      "METRE" "KILO" (by decide)
    have h2 := (claim_C9_amended { name := "METRE", pfx := some "KILO" }).2.2.2.1
      ("KILO", 10 ^ 3) (by norm_num [prefixFactors])
    rw [h1]
    exact h2.2
  · exact (claim_C9_amended { name := "FOOT", convFactor := some (3048 / 10000) }).2.2.2.2.1
      (3048 / 10000) "FOOT"
  · exact (claim_C9_amended { name := "METRE", pfx := some "KILO" }).1 2

/-- Claim C2: the quantity-set lookup is performed first and wins whenever
it yields a net or gross volume; the named-property lookup is consulted
only when the quantity set yields neither. -/
theorem claim_C2 (e : Element) :
    (∀ v : ℚ, (get_volume_from_basequantities e).1 = some v →
        (get_volume_from_properties e).1 = some v) ∧
    (∀ v : ℚ, (get_volume_from_basequantities e).2 = some v →
        (get_volume_from_properties e).2 = some v) ∧
    (get_volume_from_basequantities e = (none, none) →
      get_volume_from_properties e =
        (coerceTruthy (get_element_property e "NetVolume"),
         coerceTruthy (get_element_property e "GrossVolume"))) := by
  refine ⟨?_, ?_, ?_⟩
  · intro v h
    unfold get_volume_from_properties
    rw [if_pos (Or.inl (by rw [h]; rfl))]
    exact h
  · intro v h
    unfold get_volume_from_properties
    rw [if_pos (Or.inr (by rw [h]; rfl))]
    exact h
  · intro h
    unfold get_volume_from_properties
    rw [h]
    rfl

/-- Concrete element for the C2 witness: a quantity-set `NetVolume` of 10
and a property `NetVolume` of 20 in `Pset_WallCommon`. -/
def elemC2 : Element :=
  { ifcClass := "IfcWall", globalId := "g2"
    quantities := [Qty.simple QtyKind.volume (some "NetVolume") 10]
    psets := [{ psetName := "Pset_WallCommon", props := [{ name := "NetVolume", value := 20 }] }]
    assocs := [] }

/-- Witness for C2: the element holds both a quantity-set and a property
`NetVolume` with different values, and resolution returns the quantity-set
value. -/
theorem claim_C2_witness :
    get_element_property elemC2 "NetVolume" = some 20 ∧
    (get_volume_from_properties elemC2).1 = some 10 :=
  ⟨by decide, (claim_C2 elemC2).1 10 (by decide)⟩

/-- Concrete element for the C4 counterexample: two layers resolving to
the same material name `X`. -/
def elemC4 : Element :=
  { ifcClass := "IfcWall", globalId := "g4"
    quantities := [Qty.simple QtyKind.volume (some "NetVolume") 10]
    psets := []
    assocs := [MatAssign.layerSetUsage [{ material := some "X", thickness := 1 },
                                        { material := some "X", thickness := 1 }]] }

/-- Counterexample to C4 as stated: the second duplicate key is `"X (1)"`,
not `"X (2)"` — the dedup loop starts its counter at 1. -/
theorem claim_C4_counterexample :
    (get_material_volumes elemC4).map MVEntry.key = ["X", "X (1)"] ∧
    ("X (1)" : String) ≠ "X (2)" := by
  constructor
  · decide
  · decide

/-- Element with three layers sharing one material name, generic in the
name. -/
def elemC4gen (X : String) : Element :=
  { ifcClass := "IfcWall", globalId := "g4"
    quantities := [Qty.simple QtyKind.volume (some "NetVolume") 10]
    psets := []
    assocs := [MatAssign.layerSetUsage [{ material := some X, thickness := 1 },
                                        { material := some X, thickness := 1 },
                                        { material := some X, thickness := 1 }]] }

/-- Claim C4 as amended: duplicate material names are suffixed `" (n)"`
with n = 1, 2, … — for any name `X`, three identical layers produce the
keys `X`, `X (1)`, `X (2)` in first-seen order. -/
theorem claim_C4_amended (X : String) :
    (get_material_volumes (elemC4gen X)).map MVEntry.key =
      [X, X ++ " (1)", X ++ " (2)"] := by
  have hlen1 : (" (1)" : String).length = 4 := rfl
  have hlen2 : (" (2)" : String).length = 4 := rfl
  have hne1 : (X ++ " (1)") ≠ X := by
    intro h
    have hl := congrArg String.length h
    rw [String.length_append, hlen1] at hl
    omega
  have hne2 : (X ++ " (2)") ≠ X := by
    intro h
    have hl := congrArg String.length h
    rw [String.length_append, hlen2] at hl
    omega
  have hne12 : (X ++ " (2)") ≠ (X ++ " (1)") := by
    intro h
    have hd := congrArg String.data h
    rw [String.data_append, String.data_append] at hd
    have hc := List.append_cancel_left hd
    exact absurd hc (by decide)
  have hcat1 : X ++ " (" ++ toString (1 : ℕ) ++ ")" = X ++ " (1)" := by
    rw [String.append_assoc, String.append_assoc]
    rfl
  have hcat2 : X ++ " (" ++ toString (2 : ℕ) ++ ")" = X ++ " (2)" := by
    rw [String.append_assoc, String.append_assoc]
    rfl
  have hk1 : uniqueKey [] X = X := rfl
  have hk2 : uniqueKey [X] X = X ++ " (1)" := by
    simp only [uniqueKey, uniqueKeyAux, List.length_cons, List.length_nil]
    simp [hcat1, hne1]
  have hk3 : uniqueKey [X, X ++ " (1)"] X = X ++ " (2)" := by
    simp only [uniqueKey, uniqueKeyAux, List.length_cons, List.length_nil]
    simp [hcat1, hcat2, hne1, hne2, hne12]
  simp [elemC4gen, get_material_volumes, widthFixup,
        get_layer_volumes_and_materials, processLayerSet, hk1, hk2, hk3]

/-- Concrete element for the C6 counterexample: a present net volume of
`0.0` and a gross volume of `5`, with a single material. -/
def elemC6 : Element :=
  { ifcClass := "IfcWall", globalId := "g6"
    quantities := [Qty.simple QtyKind.volume (some "NetVolume") 0,
                   Qty.simple QtyKind.volume (some "GrossVolume") 5]
    psets := []
    assocs := [MatAssign.single "M"] }

/-- Counterexample to C6 as stated: the net volume is present with value
`0.0`, but Python `or` treats it as absent, so the allocation total is the
gross volume `5`, not the claimed net `0`. -/
theorem claim_C6_counterexample :
    get_volume_from_properties elemC6 = (some 0, some 5) ∧
    totalVolumeOf (get_volume_from_properties elemC6) = 5 ∧
    (5 : ℚ) ≠ 0 := by
  refine ⟨by decide, by decide, by norm_num⟩

/-- Entries built by the material-volume fold take their volume from some
input layer, rounded. -/
theorem mv_fold_volume_src (layers : List MatEntry) :
    ∀ (acc : List MVEntry) (mv : MVEntry),
      mv ∈ layers.foldl (fun acc l =>
        acc ++ [{ key := uniqueKey (acc.map MVEntry.key) l.name
                  fraction := l.fraction
                  volume := roundTo l.volume 5
                  width := l.width.map (fun w => roundTo w 3) }]) acc →
      mv ∈ acc ∨ ∃ l ∈ layers, mv.volume = roundTo l.volume 5 := by
  induction layers with
  | nil => intro acc mv h; exact Or.inl h
  | cons l rest ih =>
      intro acc mv h
      rw [List.foldl_cons] at h
      rcases ih _ mv h with hacc | ⟨l0, hl0, hv⟩
      · rcases List.mem_append.mp hacc with h1 | h1
        · exact Or.inl h1
        · refine Or.inr ⟨l, List.mem_cons_self _ _, ?_⟩
          rcases List.mem_singleton.mp h1 with rfl
          rfl
      · exact Or.inr ⟨l0, List.mem_cons_of_mem _ hl0, hv⟩

/-- The width fixup only touches the `width` field: every output entry
shares name, volume and fraction with an input entry. -/
theorem widthFixup_volume_src (e : Element) (ls : List MatEntry) :
    ∀ m ∈ widthFixup e ls, ∃ m0 ∈ ls, m.volume = m0.volume := by
  match ls with
  | [] =>
      intro m hm
      simp only [widthFixup] at hm
      cases hm
  | [l] =>
      intro m hm
      simp only [widthFixup] at hm
      by_cases hw : l.width = none
      · rw [if_pos hw] at hm
        cases hwd : (get_dimensions_from_properties e).width with
        | some w =>
            rw [hwd] at hm
            rcases List.mem_singleton.mp hm with rfl
            exact ⟨l, List.mem_singleton_self l, rfl⟩
        | none =>
            rw [hwd] at hm
            rcases List.mem_singleton.mp hm with rfl
            exact ⟨m, List.mem_singleton_self m, rfl⟩
      · rw [if_neg hw] at hm
        rcases List.mem_singleton.mp hm with rfl
        exact ⟨m, List.mem_singleton_self m, rfl⟩
  | l1 :: l2 :: rest =>
      intro m hm
      simp only [widthFixup] at hm
      exact ⟨m, hm, rfl⟩

/-- With a zero total volume every per-material entry carries volume 0. -/
theorem layer_volumes_zero (e : Element) :
    ∀ m ∈ get_layer_volumes_and_materials e 0, m.volume = 0 := by
  intro m hm
  unfold get_layer_volumes_and_materials at hm
  rw [List.mem_flatten] at hm
  obtain ⟨l, hl, hml⟩ := hm
  obtain ⟨a, ha, rfl⟩ := List.mem_map.mp hl
  match a, hml with
  | .layerSetUsage layers, hml =>
      obtain ⟨l0, _, rfl⟩ := List.mem_map.mp hml
      simp [roundTo_zero]
  | .constituentSet cs, hml =>
      obtain ⟨c0, _, rfl⟩ := List.mem_map.mp hml
      simp
  | .single n, hml =>
      rcases List.mem_singleton.mp hml with rfl
      rfl

/-- Claim C6 as amended: the allocation total is the net volume when it is
present and nonzero (a present `0.0` is falsy under Python `or` and falls
through), else the gross volume when present and nonzero, else `0`; and
when both are absent or zero every per-material volume is `0`. -/
theorem claim_C6_amended (e : Element) :
    (∀ x : ℚ, (get_volume_from_properties e).1 = some x → x ≠ 0 →
        totalVolumeOf (get_volume_from_properties e) = x) ∧
    (∀ y : ℚ,
        ((get_volume_from_properties e).1 = none ∨
         (get_volume_from_properties e).1 = some 0) →
        (get_volume_from_properties e).2 = some y → y ≠ 0 →
        totalVolumeOf (get_volume_from_properties e) = y) ∧
    (((get_volume_from_properties e).1 = none ∨
      (get_volume_from_properties e).1 = some 0) →
     ((get_volume_from_properties e).2 = none ∨
      (get_volume_from_properties e).2 = some 0) →
        totalVolumeOf (get_volume_from_properties e) = 0 ∧
        ∀ mv ∈ get_material_volumes e, mv.volume = 0) := by
  refine ⟨?_, ?_, ?_⟩
  · intro x h1 hx
    simp [totalVolumeOf, pyOrQ, h1, hx]
  · intro y h1 h2 hy
    rcases h1 with h1 | h1 <;> simp [totalVolumeOf, pyOrQ, h1, h2, hy]
  · intro h1 h2
    have htot : totalVolumeOf (get_volume_from_properties e) = 0 := by
      rcases h1 with h1 | h1 <;> rcases h2 with h2 | h2 <;>
        simp [totalVolumeOf, pyOrQ, h1, h2]
    refine ⟨htot, ?_⟩
    intro mv hmv
    unfold get_material_volumes at hmv
    rw [htot] at hmv
    rcases mv_fold_volume_src _ [] mv hmv with hin | ⟨l, hl, hv⟩
    · cases hin
    · obtain ⟨m0, hm0, hvol⟩ := widthFixup_volume_src e _ l hl
      rw [hv, hvol, layer_volumes_zero e m0 hm0, roundTo_zero]

/-- Element with no volume information and a single material. -/
def elemC6w : Element :=
  { ifcClass := "IfcWall", globalId := "g6w"
    quantities := [], psets := [], assocs := [MatAssign.single "M"] }

/-- Witness for the amended C6: an element with no volume at all still
gets a material entry, with volume `0`. -/
theorem claim_C6_amended_witness :
    totalVolumeOf (get_volume_from_properties elemC6w) = 0 ∧
    ∀ mv ∈ get_material_volumes elemC6w, mv.volume = 0 :=
  (claim_C6_amended elemC6w).2.2 (Or.inl (by decide)) (Or.inl (by decide))

/-- Explicit shape of the fraction computation for non-empty input. -/
theorem computeFractionsQ_eq (qs : List Qty) (scale : ℚ) (cs : List Constituent)
    (h : cs ≠ []) :
    computeFractionsQ qs scale cs =
      (if (widthsAux qs scale [] cs).sum = 0
       then cs.map (fun _ => (1 : ℚ) / cs.length)
       else (widthsAux qs scale [] cs).map
              (fun w => w / (widthsAux qs scale [] cs).sum),
       widthsAux qs scale [] cs) := by
  unfold computeFractionsQ
  rw [if_neg (by simpa using h)]

/-- Claim C5: every constituent's width is the `Width` sub-quantity of the
count-th complex quantity matching its normalized name (scaled to mm),
defaulting to `0`; equal fractions `1/n` when the width total is `0`,
else `width_i / total`. -/
theorem claim_C5 (cs : List Constituent) (es : List Element) (scale : ℚ)
    (h : cs ≠ []) :
    (compute_constituent_fractions cs es scale).2.length = cs.length ∧
    (compute_constituent_fractions cs es scale).1.length = cs.length ∧
    (∀ i, i < cs.length →
      (compute_constituent_fractions cs es scale).2.getD i 0 =
        widthSpec (collectElementQuantities es) scale cs i) ∧
    ((compute_constituent_fractions cs es scale).2.sum = 0 →
      ∀ i, i < cs.length →
        (compute_constituent_fractions cs es scale).1.getD i 0 = 1 / cs.length) ∧
    ((compute_constituent_fractions cs es scale).2.sum ≠ 0 →
      ∀ i, i < cs.length →
        (compute_constituent_fractions cs es scale).1.getD i 0 =
          (compute_constituent_fractions cs es scale).2.getD i 0 /
            (compute_constituent_fractions cs es scale).2.sum) := by
  have heq := computeFractionsQ_eq (collectElementQuantities es) scale cs h
  unfold compute_constituent_fractions
  rw [heq]
  simp only
  refine ⟨widthsAux_length _ _ _ _, ?_, ?_, ?_, ?_⟩
  · by_cases htot : (widthsAux (collectElementQuantities es) scale [] cs).sum = 0 <;>
      simp [htot, widthsAux_length]
  · intro i hi
    rw [widthsAux_getD (collectElementQuantities es) scale cs [] i hi]
    simp only [widthSpec, List.count_nil, Nat.zero_add]
  · intro htot i hi
    rw [if_pos htot, List.getD_eq_getElem?_getD, List.getElem?_map,
        List.getElem?_eq_getElem hi]
    rfl
  · intro htot i hi
    have hwl : i < (widthsAux (collectElementQuantities es) scale [] cs).length := by
      rw [widthsAux_length]; exact hi
    rw [if_neg htot, List.getD_eq_getElem?_getD, List.getElem?_map,
        List.getElem?_eq_getElem hwl, List.getD_eq_getElem?_getD,
        List.getElem?_eq_getElem hwl]
    rfl

/-- Two constituents whose names normalize to the same key, for the C5
witness. -/
def csC5 : List Constituent :=
  [{ name := some "Layer", materialName := some "M1" },
   { name := some "layer ", materialName := some "M2" }]

/-- Element carrying two duplicate-named complex quantities with `Width`
sub-quantities 30 and 10, for the C5 witness. -/
def elemC5 : Element :=
  { ifcClass := "IfcWall", globalId := "g5"
    quantities :=
      [Qty.complex (some "Layer") [{ isLength := true, name := some "Width", lengthValue := 30 }],
       Qty.complex (some " LAYER ") [{ isLength := true, name := some " width ", lengthValue := 10 }]]
    psets := []
    assocs := [] }

/-- Witness for C5: duplicate-named constituents consume duplicate-named
quantities in order, widths are 30 and 10, and the fractions follow
`width_i / total` with the concrete values `3/4` and `1/4`. -/
theorem claim_C5_witness :
    (compute_constituent_fractions csC5 [elemC5] 1).2.getD 0 0 =
      widthSpec (collectElementQuantities [elemC5]) 1 csC5 0 ∧
    (compute_constituent_fractions csC5 [elemC5] 1).2.getD 1 0 =
      widthSpec (collectElementQuantities [elemC5]) 1 csC5 1 ∧
    (compute_constituent_fractions csC5 [elemC5] 1).1.getD 1 0 =
      (compute_constituent_fractions csC5 [elemC5] 1).2.getD 1 0 /
        (compute_constituent_fractions csC5 [elemC5] 1).2.sum ∧
    (compute_constituent_fractions csC5 [elemC5] 1).1 = [3 / 4, 1 / 4] := by
  have hws : widthsAux (collectElementQuantities [elemC5]) 1 [] csC5 =
      [30 * 1, 10 * 1] := rfl
  have hsum : (compute_constituent_fractions csC5 [elemC5] 1).2.sum ≠ 0 := by
    have h2 : (compute_constituent_fractions csC5 [elemC5] 1).2 = [30 * 1, 10 * 1] := rfl
    rw [h2]
    norm_num
  refine ⟨(claim_C5 csC5 [elemC5] 1 (by decide)).2.2.1 0 (by decide),
          (claim_C5 csC5 [elemC5] 1 (by decide)).2.2.1 1 (by decide),
          (claim_C5 csC5 [elemC5] 1 (by decide)).2.2.2.2 hsum 1 (by decide), ?_⟩
  unfold compute_constituent_fractions
  rw [computeFractionsQ_eq (collectElementQuantities [elemC5]) 1 csC5 (by decide)]
  simp only [hws]
  rw [if_neg (by norm_num)]
  simp
  norm_num

/-- An empty constituent list yields empty fraction and width lists. -/
theorem compute_fr_nil (es : List Element) (scale : ℚ) :
    compute_constituent_fractions [] es scale = ([], []) := rfl

/-- A non-empty constituent list yields a non-empty fraction list. -/
theorem compute_fr_ne_nil (cs : List Constituent) (es : List Element) (scale : ℚ)
    (h : cs ≠ []) : (compute_constituent_fractions cs es scale).1 ≠ [] := by
  intro hnil
  have hlen := (computeFractionsQ_lengths (collectElementQuantities es) scale cs h).1
  unfold compute_constituent_fractions at hnil
  rw [hnil] at hlen
  exact h (List.length_eq_zero.mp hlen.symm)

/-- A step of the constituent pass leaves the state unchanged unless the
association is a constituent set with constituents. -/
theorem step_keep (e : Element) (u : ResolvedUnit) (vol : ℚ) (xw : Bool)
    (st : Option (List RouteEntry) × List Warning) (a : MatAssign)
    (h : ∀ cs, a = MatAssign.constituentSet cs → cs = []) :
    constituentPassStep e u vol xw st a = st := by
  match a with
  | .layerSetUsage l => rfl
  | .single n => rfl
  | .constituentSet cs =>
      have hcs := h cs rfl
      subst hcs
      simp [constituentPassStep, compute_fr_nil]

/-- A constituent set with constituents always installs entries and never
appends a warning: its computed fraction total is exactly `1`, inside the
tolerance. -/
theorem step_constituent (e : Element) (u : ResolvedUnit) (vol : ℚ) (xw : Bool)
    (st : Option (List RouteEntry) × List Warning) (cs : List Constituent)
    (h : cs ≠ []) :
    constituentPassStep e u vol xw st (MatAssign.constituentSet cs) =
      (some (buildConstituentEntries cs
              (compute_constituent_fractions cs [e] (unitScaleToMm u)).1
              (compute_constituent_fractions cs [e] (unitScaleToMm u)).2 vol u xw),
       st.2) := by
  have hfr := compute_fr_ne_nil cs [e] (unitScaleToMm u) h
  have hsum : (compute_constituent_fractions cs [e] (unitScaleToMm u)).1.sum = 1 :=
    computeFractionsQ_sum_one (collectElementQuantities [e]) (unitScaleToMm u) cs h
  simp only [constituentPassStep]
  rw [if_neg hfr, hsum, if_neg (by norm_num)]

/-- The constituent pass never appends warnings. -/
theorem fold_pass_warnings (e : Element) (u : ResolvedUnit) (vol : ℚ) (xw : Bool) :
    ∀ (assocs : List MatAssign) (st : Option (List RouteEntry) × List Warning),
      (assocs.foldl (constituentPassStep e u vol xw) st).2 = st.2 := by
  intro assocs
  induction assocs with
  | nil => intro st; rfl
  | cons a rest ih =>
      intro st
      rw [List.foldl_cons, ih]
      match a with
      | .layerSetUsage l => rfl
      | .single n => rfl
      | .constituentSet cs =>
          by_cases hcs : cs = []
          · rw [step_keep e u vol xw st _
              (fun cs2 hc => by rw [← MatAssign.constituentSet.inj hc]; exact hcs)]
          · rw [step_constituent e u vol xw st cs hcs]

/-- Once `material_volumes` is installed, later associations keep it
installed. -/
theorem fold_pass_preserves_some (e : Element) (u : ResolvedUnit) (vol : ℚ)
    (xw : Bool) :
    ∀ (assocs : List MatAssign) (st : Option (List RouteEntry) × List Warning)
      (l : List RouteEntry), st.1 = some l →
      ∃ l2, (assocs.foldl (constituentPassStep e u vol xw) st).1 = some l2 := by
  intro assocs
  induction assocs with
  | nil => intro st l h; exact ⟨l, h⟩
  | cons a rest ih =>
      intro st l h
      rw [List.foldl_cons]
      match a with
      | .layerSetUsage ls => exact ih st l h
      | .single n => exact ih st l h
      | .constituentSet cs =>
          by_cases hcs : cs = []
          · rw [step_keep e u vol xw st _
              (fun cs2 hc => by rw [← MatAssign.constituentSet.inj hc]; exact hcs)]
            exact ih st l h
          · rw [step_constituent e u vol xw st cs hcs]
            exact ih _ _ rfl

/-- A non-empty constituent set anywhere in the associations leaves
`material_volumes` installed at the end of the pass. -/
theorem fold_pass_some_of_mem (e : Element) (u : ResolvedUnit) (vol : ℚ)
    (xw : Bool) :
    ∀ (assocs : List MatAssign) (st : Option (List RouteEntry) × List Warning)
      (cs : List Constituent), MatAssign.constituentSet cs ∈ assocs → cs ≠ [] →
      ∃ l, (assocs.foldl (constituentPassStep e u vol xw) st).1 = some l := by
  intro assocs
  induction assocs with
  | nil => intro st cs hmem; cases hmem
  | cons a rest ih =>
      intro st cs hmem hcs
      rw [List.foldl_cons]
      rcases List.mem_cons.mp hmem with hmem | hmem
      · subst hmem
        rw [step_constituent e u vol xw st cs hcs]
        exact fold_pass_preserves_some e u vol xw rest _ _ rfl
      · exact ih _ cs hmem hcs

/-- With only empty constituent sets the pass is the identity. -/
theorem fold_pass_id (e : Element) (u : ResolvedUnit) (vol : ℚ) (xw : Bool) :
    ∀ (assocs : List MatAssign) (st : Option (List RouteEntry) × List Warning),
      (∀ cs, MatAssign.constituentSet cs ∈ assocs → cs = []) →
      assocs.foldl (constituentPassStep e u vol xw) st = st := by
  intro assocs
  induction assocs with
  | nil => intro st _; rfl
  | cons a rest ih =>
      intro st h
      rw [List.foldl_cons,
          step_keep e u vol xw st a (fun cs hc => h cs (hc ▸ List.mem_cons_self a rest)),
          ih st (fun cs hmem => h cs (List.mem_cons_of_mem a hmem))]

/-- The constituent pass produces nothing when the net volume is falsy or
every constituent set is empty. -/
theorem constituentPass_none_case (e : Element) (u : ResolvedUnit) (xw : Bool)
    (h : truthyQ (get_volume_from_properties e).1 = false ∨
         ∀ cs, MatAssign.constituentSet cs ∈ e.assocs → cs = []) :
    constituentPass e u xw = (none, []) := by
  unfold constituentPass
  rcases h with h | h
  · rw [if_neg (by simp [h])]
  · by_cases htr : truthyQ (get_volume_from_properties e).1 = true
    · rw [if_pos htr]
      exact fold_pass_id e u _ xw e.assocs (none, []) h
    · rw [if_neg htr]

/-- Claim C1 (on the mounted `ifc_routes.py` extract route): whenever the
validated fraction total of an element's breakdown is out of tolerance,
the record is emitted without `material_volumes` and with the structured
warning `{element_id, element_type, total_fraction}` while the materials
list is kept; within tolerance the breakdown is exposed and no warning is
recorded; and the constituent-set pass itself always installs a breakdown
(its exact fraction total is `1`, so its discard branch cannot fire). -/
theorem claim_C1 (e : Element) (u : ResolvedUnit) (xw : Bool)
    (hm : get_element_materials e ≠ []) :
    (truthyQ (get_volume_from_properties e).1 = true →
      (∃ cs, MatAssign.constituentSet cs ∈ e.assocs ∧ cs ≠ []) →
      (∃ l, (processMaterials e u xw).material_volumes = some l) ∧
      (processMaterials e u xw).warnings = [] ∧
      (processMaterials e u xw).materials = get_element_materials e) ∧
    ((truthyQ (get_volume_from_properties e).1 = false ∨
      ∀ cs, MatAssign.constituentSet cs ∈ e.assocs → cs = []) →
     get_material_volumes e ≠ [] →
     (|((get_material_volumes e).map MVEntry.fraction).sum - 1| > 1 / 1000 →
        (processMaterials e u xw).material_volumes = none ∧
        (processMaterials e u xw).warnings =
          [{ element_id := e.globalId, element_type := e.ifcClass,
             total_fraction := ((get_material_volumes e).map MVEntry.fraction).sum }] ∧
        (processMaterials e u xw).materials = get_element_materials e) ∧
     (|((get_material_volumes e).map MVEntry.fraction).sum - 1| ≤ 1 / 1000 →
        (∃ l, (processMaterials e u xw).material_volumes = some l ∧ l ≠ []) ∧
        (processMaterials e u xw).warnings = [] ∧
        (processMaterials e u xw).materials = get_element_materials e)) := by
  constructor
  · rintro htr ⟨cs, hmem, hcs⟩
    have hw : (constituentPass e u xw).2 = [] := by
      unfold constituentPass
      rw [if_pos htr]
      exact fold_pass_warnings e u _ xw e.assocs (none, [])
    have hs : ∃ l, (constituentPass e u xw).1 = some l := by
      unfold constituentPass
      rw [if_pos htr]
      exact fold_pass_some_of_mem e u _ xw e.assocs (none, []) cs hmem hcs
    obtain ⟨l, hl⟩ := hs
    have hst : constituentPass e u xw = (some l, []) := Prod.ext hl hw
    unfold processMaterials
    rw [if_neg hm, hst]
    exact ⟨⟨l, rfl⟩, rfl, rfl⟩
  · intro hcond hmv2
    have hcp : constituentPass e u xw = (none, []) :=
      constituentPass_none_case e u xw hcond
    unfold processMaterials
    rw [if_neg hm, hcp]
    constructor
    · intro hout
      simp only [fallbackMaterialVolumes]
      rw [if_neg hmv2, if_neg (not_le.mpr hout)]
      exact ⟨rfl, by simp, rfl⟩
    · intro hin
      simp only [fallbackMaterialVolumes]
      rw [if_neg hmv2, if_pos hin]
      refine ⟨⟨_, rfl, ?_⟩, rfl, rfl⟩
      intro hmap
      exact hmv2 (List.map_eq_nil_iff.mp hmap)

/-- Element with a zero-thickness layer set: its standard material-volume
fractions are all `0`, so the fraction sum `0` is out of tolerance. -/
def elemC1 : Element :=
  { ifcClass := "IfcWall", globalId := "w0"
    quantities := [], psets := []
    assocs := [MatAssign.layerSetUsage [{ material := some "A", thickness := 0 },
                                        { material := some "B", thickness := 0 }]] }

/-- Witness for C1: the zero-thickness element gets no `material_volumes`,
one warning `{element_id := "w0", element_type := "IfcWall",
total_fraction := 0}`, and its materials list is still returned. -/
theorem claim_C1_witness :
    (processMaterials elemC1 { name := "METER" } false).material_volumes = none ∧
    (processMaterials elemC1 { name := "METER" } false).warnings =
      [{ element_id := "w0", element_type := "IfcWall", total_fraction := 0 }] ∧
    (processMaterials elemC1 { name := "METER" } false).materials = ["A", "B"] := by
  have h0 : (get_material_volumes elemC1).map MVEntry.fraction = [0, 0] := by
    simp [get_material_volumes, elemC1, totalVolumeOf, get_volume_from_properties,
          get_volume_from_basequantities, get_element_property, getPset, coerceTruthy,
          pyOrQ, get_layer_volumes_and_materials, processLayerSet, widthFixup,
          get_dimensions_from_properties, get_dimensions_from_basequantities,
          dimsAnyTruthy, truthyQ, uniqueKey, uniqueKeyAux, roundTo_zero]
  have hsum : ((get_material_volumes elemC1).map MVEntry.fraction).sum = 0 := by
    rw [h0]
    simp
  have th := ((claim_C1 elemC1 { name := "METER" } false (by decide)).2
      (Or.inl (by decide)) (by decide)).1 (by rw [hsum]; norm_num)
  rw [hsum] at th
  exact ⟨th.1, th.2.1, by rw [th.2.2]; decide⟩

end OpenBim
